import Mathlib

/-!
Shallow embedding of the build-context packaging and image-tagging workflow
of `src/wandb/sdk/launch/docker.py`, together with theorems settling the
specification's testable properties.

Modelling conventions:
* Filesystem paths are lists of path components; the filesystem state is an
  explicit record of existing directories, regular files (with their byte
  contents as `String`), and tar archives, threaded through every operation.
* Code from this repository that is not part of the excerpt
  (`_is_wandb_local_uri`, `_is_wandb_dev_uri`, `WANDB_DOCKER_WORKDIR_PATH`
  from `wandb/sdk/launch/utils.py`, `GitRepo.last_commit` from
  `wandb/sdk/lib/git.py`, `wandb.util.make_tarfile`) is either abstracted
  as a parameter or, where a claim depends on its behaviour, modelled from
  the specification (marked in the doc comment).
* Python truthiness on strings (`if s:`) is embedded as a non-emptiness
  test; `None`-able strings are embedded as `Option String`.
-/

namespace WandbLaunch

/-- A filesystem path, as a list of path components from the root. -/
abbrev FsPath := List String

/-- Error taxonomy of the specification (section 7).  `valueError` stands for
Python's generic, unnamed unpacking failure (`ValueError`); the named errors
are the spec's names for the exceptions raised by the source. -/
inductive Err where
  | toolNotFoundError
  | missingConfigurationError
  | packagingError
  | buildError
  | valueError
  deriving DecidableEq

/-- Source constant `_GENERATED_DOCKERFILE_NAME`. -/
def _GENERATED_DOCKERFILE_NAME : String := "Dockerfile.wandb-autogenerated"

/-- Source constant `_PROJECT_TAR_ARCHIVE_NAME`. -/
def _PROJECT_TAR_ARCHIVE_NAME : String := "wandb-project-docker-build-context"

/-- The `Project` descriptor (`_project_spec.Project`): directory, optional
human-readable name, and the environment-configuration mapping
(`docker_env`), embedded as an association list. -/
structure Project where
  dir : FsPath
  name : Option String
  docker_env : List (String × String)

/-- Python `str.replace(" ", "-")`: with a single-character pattern and a
single-character replacement this substitutes each occurrence independently,
which is exactly a character map. -/
def replaceSpaces (s : String) : String :=
  String.mk (s.data.map fun c => if c = ' ' then '-' else c)

/-- The repository-URI normalization of `_get_docker_image_uri`:
`repository_uri.replace(" ", "-") if repository_uri else "docker-project"`
(Python truthiness: the empty string selects the default placeholder). -/
def normalizedRepoUri (repository_uri : String) : String :=
  if repository_uri.isEmpty then "docker-project" else replaceSpaces repository_uri

/-- The version suffix of `_get_docker_image_uri`:
`":" + git_commit[:7] if git_commit else ""`.  The `git_commit` argument
stands for the result of the read-only query `GitRepo(work_dir).last_commit`
(library code outside the excerpt); `none` and the empty string are both
falsy in the source's check. -/
def versionString (git_commit : Option String) : String :=
  match git_commit with
  | none => ""
  | some c => if c.isEmpty then "" else ":" ++ String.mk (c.data.take 7)

/-- Source function `_get_docker_image_uri(repository_uri, work_dir)`, with the
version-control query result passed explicitly as `git_commit`. -/
def _get_docker_image_uri (git_commit : Option String) (repository_uri : String) : String :=
  normalizedRepoUri repository_uri ++ versionString git_commit

/-- Source function `validate_docker_env(project)`: requires a truthy value under the key
`"image"` of `project.docker_env`; raises (spec name:
`MissingConfigurationError`) otherwise.  Pure: it touches no state and
returns nothing on success. -/
def validate_docker_env (project : Project) : Except Err Unit :=
  match project.docker_env.lookup "image" with
  | none => .error .missingConfigurationError
  | some img => if img.isEmpty then .error .missingConfigurationError else .ok ()

/-- Python truthiness of the optional `project.name`. -/
def nameSet : Option String → Bool
  | none => false
  | some s => !s.isEmpty

/-- The `name_env` line of `build_docker_image`:
`"ENV WANDB_NAME={}\n".format(project.name) if project.name else ""`. -/
def name_env_line (name : Option String) : String :=
  match name with
  | none => ""
  | some n => if n.isEmpty then "" else "ENV WANDB_NAME=" ++ n ++ "\n"

/-- The generated build recipe of `build_docker_image`, by direct
transcription of the format string.  `workdir` stands for the constant
`WANDB_DOCKER_WORKDIR_PATH` imported from outside the excerpt. -/
def render_dockerfile (base_image workdir base_url api_key wandb_project wandb_entity : String)
    (name : Option String) : String :=
  "FROM " ++ base_image ++ "\n" ++
  "COPY " ++ _PROJECT_TAR_ARCHIVE_NAME ++ "/ " ++ workdir ++ "\n" ++
  "WORKDIR " ++ workdir ++ "\n" ++
  "ENV WANDB_BASE_URL=" ++ base_url ++ "\n" ++
  "ENV WANDB_API_KEY=" ++ api_key ++ "\n" ++
  "ENV WANDB_PROJECT=" ++ wandb_project ++ "\n" ++
  "ENV WANDB_ENTITY=" ++ wandb_entity ++ "\n" ++
  name_env_line name ++
  "ENV WANDB_LAUNCH=True\n" ++
  "USER root\n"

theorem String_mk_data (s : String) : String.mk s.data = s := by
  cases s
  rfl

/-- C2: the Tag Deriver substitutes the fixed default placeholder name for an
empty repository URI, and replaces every space character of a non-empty
repository URI with a hyphen (character-wise), so no space survives; the
result for input `"my repo"` has prefix `"my-repo"`. -/
theorem C2_tag_normalization (git_commit : Option String) (uri : String) :
    (¬ uri = "" → _get_docker_image_uri git_commit uri = replaceSpaces uri ++ versionString git_commit)
    ∧ _get_docker_image_uri git_commit "" = "docker-project" ++ versionString git_commit
    ∧ (replaceSpaces uri).data = uri.data.map (fun c => if c = ' ' then '-' else c)
    ∧ (∀ c, c ∈ (normalizedRepoUri uri).data → c ≠ ' ')
    ∧ (∃ s, _get_docker_image_uri git_commit "my repo" = "my-repo" ++ s) := by
  refine ⟨?_, ?_, ?_, ?_, ?_⟩
  · intro h
    have hne : uri.isEmpty = false := by
      cases he : uri.isEmpty
      · rfl
      · exact absurd ((String.isEmpty_iff uri).mp he) h
    simp [_get_docker_image_uri, normalizedRepoUri, hne]
  · rfl
  · rfl
  · intro c hc
    unfold normalizedRepoUri at hc
    by_cases he : uri.isEmpty
    · simp [he] at hc
      rcases hc with h1 | h1 | h1 | h1 | h1 | h1 | h1 | h1 | h1 | h1 | h1 | h1 | h1 | h1 <;>
        simp [h1]
    · simp [he, replaceSpaces] at hc
      obtain ⟨a, _, ha⟩ := hc
      by_cases hsp : a = ' '
      · simp [hsp] at ha
        simp [← ha]
      · simp [hsp] at ha
        simpa [← ha] using hsp
  · exact ⟨versionString git_commit, rfl⟩

/-- C2 witness at the concrete inputs of the claim's example. -/
theorem C2_witness :
    ¬ "my repo" = "" ∧
      _get_docker_image_uri none "my repo" = replaceSpaces "my repo" ++ versionString none :=
  ⟨by decide, (C2_tag_normalization none "my repo").1 (by decide)⟩

/-- C3: the tag has no version suffix when the version-control query yields
no commit identifier (the tag is exactly the normalized repository URI), and
with a commit identifier the suffix is a colon followed by its first seven
characters — the whole identifier when it is shorter than seven. -/
theorem C3_version_suffix (uri : String) :
    _get_docker_image_uri none uri = normalizedRepoUri uri
    ∧ _get_docker_image_uri (some "") uri = normalizedRepoUri uri
    ∧ (∀ c : String, ¬ c = "" →
        _get_docker_image_uri (some c) uri
          = normalizedRepoUri uri ++ (":" ++ String.mk (c.data.take 7)))
    ∧ (∀ c : String, ¬ c = "" → c.data.length < 7 →
        _get_docker_image_uri (some c) uri = normalizedRepoUri uri ++ (":" ++ c)) := by
  have hvs : versionString (some "") = "" := by decide
  refine ⟨by simp [_get_docker_image_uri, versionString], by simp [_get_docker_image_uri, hvs], ?_, ?_⟩
  · intro c hc
    have hne : c.isEmpty = false := by
      cases he : c.isEmpty
      · rfl
      · exact absurd ((String.isEmpty_iff c).mp he) hc
    simp [_get_docker_image_uri, versionString, hne]
  · intro c hc hlen
    have hne : c.isEmpty = false := by
      cases he : c.isEmpty
      · rfl
      · exact absurd ((String.isEmpty_iff c).mp he) hc
    have htake : c.data.take 7 = c.data := List.take_of_length_le (Nat.le_of_lt hlen)
    simp [_get_docker_image_uri, versionString, hne, htake, String_mk_data]

/-- C3 witness: commit `abc1234567` is truncated to the 7-character suffix
`:abc1234`, and a short commit is kept whole. -/
theorem C3_witness :
    (¬ "abc1234567" = "" ∧
      _get_docker_image_uri (some "abc1234567") "r"
        = normalizedRepoUri "r" ++ (":" ++ String.mk ("abc1234567".data.take 7)))
    ∧ (¬ "ab" = "" ∧ ("ab" : String).data.length < 7 ∧
      _get_docker_image_uri (some "ab") "r" = normalizedRepoUri "r" ++ (":" ++ "ab"))
    ∧ String.mk ("abc1234567".data.take 7) = "abc1234" :=
  ⟨⟨by decide, (C3_version_suffix "r").2.2.1 "abc1234567" (by decide)⟩,
   ⟨by decide, by decide, (C3_version_suffix "r").2.2.2 "ab" (by decide) (by decide)⟩,
   by decide⟩

/-- C7: the rendered recipe is exactly the listed line sequence, with the
`ENV WANDB_NAME` line present precisely when the descriptor's name is set
(truthy), and all values substituted verbatim. -/
theorem C7_recipe_text (base_image workdir base_url api_key wandb_project wandb_entity : String)
    (name : Option String) :
    render_dockerfile base_image workdir base_url api_key wandb_project wandb_entity name =
      "FROM " ++ base_image ++ "\n" ++
      "COPY " ++ _PROJECT_TAR_ARCHIVE_NAME ++ "/ " ++ workdir ++ "\n" ++
      "WORKDIR " ++ workdir ++ "\n" ++
      "ENV WANDB_BASE_URL=" ++ base_url ++ "\n" ++
      "ENV WANDB_API_KEY=" ++ api_key ++ "\n" ++
      "ENV WANDB_PROJECT=" ++ wandb_project ++ "\n" ++
      "ENV WANDB_ENTITY=" ++ wandb_entity ++ "\n" ++
      (if nameSet name then "ENV WANDB_NAME=" ++ name.getD "" ++ "\n" else "") ++
      "ENV WANDB_LAUNCH=True\n" ++
      "USER root\n" := by
  cases name with
  | none => rfl
  | some n =>
    cases hn : n.isEmpty <;>
      simp [render_dockerfile, name_env_line, nameSet, hn]

/-- C8: `validate_docker_env` fails — with `MissingConfigurationError` and no
other error — exactly when the environment-configuration mapping has no
non-empty `"image"` entry; it succeeds otherwise.  The function is pure, so
it has no side effects and cannot change the descriptor. -/
theorem C8_validate_docker_env (p : Project) :
    (validate_docker_env p = .error .missingConfigurationError ↔
      (p.docker_env.lookup "image" = none ∨ p.docker_env.lookup "image" = some ""))
    ∧ (validate_docker_env p = .ok () ↔
      ¬ (p.docker_env.lookup "image" = none ∨ p.docker_env.lookup "image" = some "")) := by
  cases hl : p.docker_env.lookup "image" with
  | none => simp [validate_docker_env, hl]
  | some img =>
    by_cases h0 : img = ""
    · have he : ("" : String).isEmpty = true := by decide
      subst h0
      simp [validate_docker_env, hl, he]
    · have he : img.isEmpty = false := by
        cases he' : img.isEmpty
        · rfl
        · exact absurd ((String.isEmpty_iff img).mp he') h0
      simp [validate_docker_env, hl, he, h0]

/-- Explicit filesystem state: existing directories, regular files with their
contents, and tar-archive files with their entry lists (an entry is an
archive-internal path plus file contents).  `counter` drives fresh
temporary-path allocation. -/
structure FS where
  dirs : List FsPath
  files : List (FsPath × String)
  tars : List (FsPath × List (List String × String))
  counter : Nat
  deriving DecidableEq

/-- The n-th temporary path handed out by the allocator.  The concrete name
scheme is a model artifact; what matters is that distinct indices give
distinct top-level paths. -/
def tmpPath (n : Nat) : FsPath := ["tmp" ++ String.mk (List.replicate n 'x')]

/-- Whether any filesystem object (directory, file or tar) exists at `p`. -/
def FS.hasPath (fs : FS) (p : FsPath) : Bool :=
  fs.dirs.contains p || fs.files.any (fun e => e.1 == p) || fs.tars.any (fun e => e.1 == p)

/-- Python `tempfile.mkdtemp()`: allocate a fresh, uniquely named scratch
directory. -/
def mkdtemp (fs : FS) : FsPath × FS :=
  (tmpPath fs.counter,
   { fs with dirs := fs.dirs ++ [tmpPath fs.counter], counter := fs.counter + 1 })

/-- Relocation of a path under `src` to the corresponding path under
`dst`. -/
def rebase (src dst p : FsPath) : Option FsPath :=
  if src.isPrefixOf p then some (dst ++ p.drop src.length) else none

/-- The filesystem after duplicating every object under `src` at the
corresponding path under `dst`. -/
def copiedFS (src dst : FsPath) (fs : FS) : FS :=
  { fs with
    dirs := fs.dirs ++ fs.dirs.filterMap (rebase src dst),
    files := fs.files ++ fs.files.filterMap (fun e => (rebase src dst e.1).map (fun q => (q, e.2))),
    tars := fs.tars ++ fs.tars.filterMap (fun e => (rebase src dst e.1).map (fun q => (q, e.2))) }

/-- Python `shutil.copytree(src, dst)`: strict, non-merging recursive copy.  Fails
when the source directory does not exist or the destination already exists;
otherwise duplicates every object under `src` at the corresponding path
under `dst`. -/
def copytree (src dst : FsPath) (fs : FS) : Except Err FS :=
  if ¬ fs.dirs.contains src then .error .packagingError
  else if fs.hasPath dst then .error .packagingError
  else .ok (copiedFS src dst fs)

/-- Python `open(path, "w")` followed by `write`: create or truncate the regular
file at `p` and write `s`. -/
def writeFile (p : FsPath) (s : String) (fs : FS) : FS :=
  { fs with files := fs.files.filter (fun e => !(e.1 == p)) ++ [(p, s)] }

/-- Python `tempfile.mkstemp()`: allocate a fresh temporary path with an empty
regular file at it. -/
def mkstemp (fs : FS) : FsPath × FS :=
  (tmpPath fs.counter,
   { fs with files := fs.files ++ [(tmpPath fs.counter, "")], counter := fs.counter + 1 })

/-- The entries of the archive of `source_dir`: every regular file under
`source_dir`, at its source-relative path under the single root
`archive_name`, with its contents unchanged. -/
def tarEntries (source_dir : FsPath) (archive_name : String) (fs : FS) : List (List String × String) :=
  fs.files.filterMap (fun e =>
    if source_dir.isPrefixOf e.1 then
      some (archive_name :: e.1.drop source_dir.length, e.2)
    else none)

/-- Modelled from the spec: `wandb.util.make_tarfile(output_filename,
source_dir, archive_name)` is not part of the excerpt; per the spec it
archives the source directory into a single file at `output_filename`, all
entry paths sharing the one root `archive_name`. -/
def make_tarfile (output_filename source_dir : FsPath) (archive_name : String) (fs : FS) : FS :=
  { fs with
    files := fs.files.filter (fun e => !(e.1 == output_filename)),
    tars := fs.tars.filter (fun e => !(e.1 == output_filename))
      ++ [(output_filename, tarEntries source_dir archive_name fs)] }

/-- Python `shutil.rmtree(d)`: remove the directory `d` and everything below it. -/
def rmtree (d : FsPath) (fs : FS) : FS :=
  { fs with
    dirs := fs.dirs.filter (fun p => !(d.isPrefixOf p)),
    files := fs.files.filter (fun e => !(d.isPrefixOf e.1)),
    tars := fs.tars.filter (fun e => !(d.isPrefixOf e.1)) }

/-- Python `os.remove(p)`: remove the file at `p`. -/
def removeFile (p : FsPath) (fs : FS) : FS :=
  { fs with
    files := fs.files.filter (fun e => !(e.1 == p)),
    tars := fs.tars.filter (fun e => !(e.1 == p)) }

/-- External-failure oracle for the packager: whether the recipe write and
the archiving step raise an error for reasons outside the modelled state
(I/O failure of the external tar utility or of the write). -/
structure ExtFail where
  writeFails : Bool
  tarFails : Bool

/-- Source function `_create_docker_build_ctx(work_dir, dockerfile_contents)`:
`mkdtemp`, then inside `try:` copy the project, write the recipe, allocate
the archive path and archive; `finally: shutil.rmtree(directory)` runs on
every exit path, after which the result or the error is returned. -/
def _create_docker_build_ctx (ext : ExtFail) (work_dir : FsPath)
    (dockerfile_contents : String) (fs : FS) : Except Err FsPath × FS :=
  let directory := (mkdtemp fs).1
  let fs1 := (mkdtemp fs).2
  let dst_path := directory ++ ["wandb-project-contents"]
  match copytree work_dir dst_path fs1 with
  | .error e => (.error e, rmtree directory fs1)
  | .ok fs2 =>
    if ext.writeFails then (.error .packagingError, rmtree directory fs2)
    else
      let fs3 := writeFile (dst_path ++ [_GENERATED_DOCKERFILE_NAME]) dockerfile_contents fs2
      let result_path := (mkstemp fs3).1
      let fs4 := (mkstemp fs3).2
      if ext.tarFails then (.error .packagingError, rmtree directory fs4)
      else
        let fs5 := make_tarfile result_path dst_path _PROJECT_TAR_ARCHIVE_NAME fs4
        (.ok result_path, rmtree directory fs5)

theorem rmtree_no_dir (d p : FsPath) (fs : FS) (h : d.isPrefixOf p = true) :
    p ∉ (rmtree d fs).dirs := by
  intro hmem
  rcases List.mem_filter.mp hmem with ⟨-, hpred⟩
  simp [h] at hpred

theorem rmtree_no_file (d p : FsPath) (s : String) (fs : FS) (h : d.isPrefixOf p = true) :
    (p, s) ∉ (rmtree d fs).files := by
  intro hmem
  rcases List.mem_filter.mp hmem with ⟨-, hpred⟩
  simp [h] at hpred

theorem rmtree_no_tar (d p : FsPath) (E : List (List String × String)) (fs : FS)
    (h : d.isPrefixOf p = true) : (p, E) ∉ (rmtree d fs).tars := by
  intro hmem
  rcases List.mem_filter.mp hmem with ⟨-, hpred⟩
  simp [h] at hpred

theorem create_ctx_snd (ext : ExtFail) (wd : FsPath) (c : String) (fs : FS) :
    ∃ g, (_create_docker_build_ctx ext wd c fs).2 = rmtree (tmpPath fs.counter) g := by
  unfold _create_docker_build_ctx
  dsimp only
  rcases h : copytree wd ((mkdtemp fs).1 ++ ["wandb-project-contents"]) (mkdtemp fs).2 with
    e | fs2 <;> simp only [h]
  · exact ⟨_, rfl⟩
  · split
    · exact ⟨_, rfl⟩
    · split
      · exact ⟨_, rfl⟩
      · exact ⟨_, rfl⟩

/-- C1: on every exit path of the Build-Context Packager — whether the copy,
the recipe write or the archiving step succeeds or fails — the freshly
allocated scratch directory and everything below it (the copied project
contents included) are absent from the filesystem state after the call. -/
theorem C1_scratch_cleanup (ext : ExtFail) (work_dir : FsPath) (contents : String)
    (fs : FS) (p : FsPath) (hp : (tmpPath fs.counter).isPrefixOf p = true) :
    p ∉ (_create_docker_build_ctx ext work_dir contents fs).2.dirs
    ∧ (∀ s, (p, s) ∉ (_create_docker_build_ctx ext work_dir contents fs).2.files)
    ∧ (∀ E, (p, E) ∉ (_create_docker_build_ctx ext work_dir contents fs).2.tars) := by
  obtain ⟨g, hg⟩ := create_ctx_snd ext work_dir contents fs
  rw [hg]
  exact ⟨rmtree_no_dir _ _ _ hp, fun s => rmtree_no_file _ _ s _ hp,
    fun E => rmtree_no_tar _ _ E _ hp⟩

/-- C1 witness at a concrete invocation. -/
theorem C1_witness :
    (tmpPath (0 : Nat)).isPrefixOf ["tmp"] = true
    ∧ ["tmp"] ∉ (_create_docker_build_ctx ⟨false, false⟩ ["proj"] "recipe"
        ⟨[["proj"]], [(["proj", "main.py"], "code")], [], 0⟩).2.dirs :=
  ⟨by decide,
   (C1_scratch_cleanup ⟨false, false⟩ ["proj"] "recipe"
      ⟨[["proj"]], [(["proj", "main.py"], "code")], [], 0⟩ ["tmp"] (by decide)).1⟩

/-- Decidable freshness of the n-th temporary path with respect to a
filesystem state: no existing object lies at or below `tmpPath n`. -/
def freshB (n : Nat) (fs : FS) : Bool :=
  fs.dirs.all (fun p => !((tmpPath n).isPrefixOf p))
    && fs.files.all (fun e => !((tmpPath n).isPrefixOf e.1))
    && fs.tars.all (fun e => !((tmpPath n).isPrefixOf e.1))

theorem isPrefixOf_append_self {α : Type} [BEq α] [LawfulBEq α] (l t : List α) :
    l.isPrefixOf (l ++ t) = true := by
  simp [ List.isPrefixOf_iff_prefix]

theorem tmpPath_head_ne (n : Nat) :
    ¬ ("tmp" ++ String.mk (List.replicate n 'x') = "tmp" ++ String.mk (List.replicate (n + 1) 'x')) := by
  intro h
  have hlen := congrArg String.length h
  rw [String.length_append, String.length_append] at hlen
  have h2 : (String.mk (List.replicate n 'x')).length = n := by
    simp [String.length]
  have h3 : (String.mk (List.replicate (n + 1) 'x')).length = n + 1 := by
    simp [String.length]
  rw [h2, h3] at hlen
  omega

theorem tmpPath_not_prefix_succ (n : Nat) :
    (tmpPath n).isPrefixOf (tmpPath (n + 1)) = false := by
  show (("tmp" ++ String.mk (List.replicate n 'x')
      == "tmp" ++ String.mk (List.replicate (n + 1) 'x')) && true) = false
  rw [Bool.and_true]
  exact beq_eq_false_iff_ne.mpr (tmpPath_head_ne n)

theorem freshB_dirs (n : Nat) (fs : FS) (h : freshB n fs = true) (p : FsPath)
    (hp : p ∈ fs.dirs) : (tmpPath n).isPrefixOf p = false := by
  simp [freshB, List.all_eq_true] at h
  exact h.1.1 p hp

theorem freshB_files (n : Nat) (fs : FS) (h : freshB n fs = true) (p : FsPath) (s : String)
    (hp : (p, s) ∈ fs.files) : (tmpPath n).isPrefixOf p = false := by
  simp [freshB, List.all_eq_true] at h
  exact h.1.2 p s hp

theorem freshB_tars (n : Nat) (fs : FS) (h : freshB n fs = true) (p : FsPath)
    (E : List (List String × String)) (hp : (p, E) ∈ fs.tars) :
    (tmpPath n).isPrefixOf p = false := by
  simp [freshB, List.all_eq_true] at h
  exact h.2 p E hp

theorem copytree_ok (src dst : FsPath) (fs : FS) (h1 : fs.dirs.contains src = true)
    (h2 : fs.hasPath dst = false) : copytree src dst fs = .ok (copiedFS src dst fs) := by
  have hm : src ∈ fs.dirs := List.mem_of_elem_eq_true h1
  simp [copytree, hm, h2]

/-- The filesystem state of the success path just before archiving: scratch
directory allocated, project copied, recipe written, archive path
allocated. -/
def ctxFS4 (work_dir : FsPath) (d : String) (fs : FS) : FS :=
  (mkstemp (writeFile
    ((tmpPath fs.counter ++ ["wandb-project-contents"]) ++ [_GENERATED_DOCKERFILE_NAME]) d
    (copiedFS work_dir (tmpPath fs.counter ++ ["wandb-project-contents"]) (mkdtemp fs).2))).2

theorem create_ctx_ok_eq (work_dir : FsPath) (d : String) (fs : FS)
    (h1 : ((mkdtemp fs).2).dirs.contains work_dir = true)
    (h2 : ((mkdtemp fs).2).hasPath ((mkdtemp fs).1 ++ ["wandb-project-contents"]) = false) :
    _create_docker_build_ctx ⟨false, false⟩ work_dir d fs =
      (.ok (tmpPath (fs.counter + 1)),
       rmtree (tmpPath fs.counter)
         (make_tarfile (tmpPath (fs.counter + 1))
           (tmpPath fs.counter ++ ["wandb-project-contents"])
           _PROJECT_TAR_ARCHIVE_NAME (ctxFS4 work_dir d fs))) := by
  unfold _create_docker_build_ctx
  dsimp only
  rw [copytree_ok work_dir _ _ h1 h2]
  rfl

/-- C6 as amended: on a state where the scratch path is fresh and the source
project directory exists, the packager succeeds and the produced archive has
every entry under the single root `_PROJECT_TAR_ARCHIVE_NAME`; under that
root appear the generated recipe file (under its fixed filename) and every
file originally present in the source project directory — except a
top-level source file named exactly like the recipe file, which the recipe
write overwrites — byte-identical for regular files. -/
theorem C6_archive_containment (work_dir : FsPath) (d : String) (fs : FS)
    (h0 : freshB fs.counter fs = true)
    (hwd : fs.dirs.contains work_dir = true) :
    (_create_docker_build_ctx ⟨false, false⟩ work_dir d fs).1 = .ok (tmpPath (fs.counter + 1))
    ∧ ∃ E, (tmpPath (fs.counter + 1), E)
          ∈ (_create_docker_build_ctx ⟨false, false⟩ work_dir d fs).2.tars
        ∧ ([_PROJECT_TAR_ARCHIVE_NAME, _GENERATED_DOCKERFILE_NAME], d) ∈ E
        ∧ (∀ q c, (q, c) ∈ E → ∃ t, q = _PROJECT_TAR_ARCHIVE_NAME :: t)
        ∧ (∀ p c, (p, c) ∈ fs.files → work_dir.isPrefixOf p = true →
            ¬ p.drop work_dir.length = [_GENERATED_DOCKERFILE_NAME] →
            (_PROJECT_TAR_ARCHIVE_NAME :: p.drop work_dir.length, c) ∈ E) := by
  have hdst_pre : (tmpPath fs.counter).isPrefixOf
      (tmpPath fs.counter ++ ["wandb-project-contents"]) = true :=
    isPrefixOf_append_self _ _
  have hc1 : ((mkdtemp fs).2).dirs.contains work_dir = true := by
    have hm : work_dir ∈ fs.dirs := List.mem_of_elem_eq_true hwd
    exact List.elem_eq_true_of_mem (List.mem_append_left _ hm)
  have hc2 : ((mkdtemp fs).2).hasPath ((mkdtemp fs).1 ++ ["wandb-project-contents"]) = false := by
    have hd : ¬ (tmpPath fs.counter ++ ["wandb-project-contents"])
        ∈ fs.dirs ++ [tmpPath fs.counter] := by
      intro hmem
      rcases List.mem_append.mp hmem with hmem | hmem
      · have hfr := freshB_dirs _ _ h0 _ hmem
        rw [hdst_pre] at hfr
        exact Bool.noConfusion hfr
      · have heq := List.mem_singleton.mp hmem
        have hlen := congrArg List.length heq
        simp [tmpPath] at hlen
    have hA : (fs.dirs ++ [tmpPath fs.counter]).contains
        (tmpPath fs.counter ++ ["wandb-project-contents"]) = false := by
      cases hv : (fs.dirs ++ [tmpPath fs.counter]).contains
          (tmpPath fs.counter ++ ["wandb-project-contents"])
      · rfl
      · exact absurd (List.mem_of_elem_eq_true hv) hd
    have hB : fs.files.any
        (fun e => e.1 == tmpPath fs.counter ++ ["wandb-project-contents"]) = false := by
      cases hv : fs.files.any
          (fun e => e.1 == tmpPath fs.counter ++ ["wandb-project-contents"])
      · rfl
      · obtain ⟨e, he, hpe⟩ := List.any_eq_true.mp hv
        have hfr := freshB_files _ _ h0 e.1 e.2 he
        rw [eq_of_beq hpe, hdst_pre] at hfr
        exact Bool.noConfusion hfr
    have hC : fs.tars.any
        (fun e => e.1 == tmpPath fs.counter ++ ["wandb-project-contents"]) = false := by
      cases hv : fs.tars.any
          (fun e => e.1 == tmpPath fs.counter ++ ["wandb-project-contents"])
      · rfl
      · obtain ⟨e, he, hpe⟩ := List.any_eq_true.mp hv
        have hfr := freshB_tars _ _ h0 e.1 e.2 he
        rw [eq_of_beq hpe, hdst_pre] at hfr
        exact Bool.noConfusion hfr
    show ((fs.dirs ++ [tmpPath fs.counter]).contains
          (tmpPath fs.counter ++ ["wandb-project-contents"])
        || fs.files.any (fun e => e.1 == tmpPath fs.counter ++ ["wandb-project-contents"])
        || fs.tars.any (fun e => e.1 == tmpPath fs.counter ++ ["wandb-project-contents"]))
      = false
    rw [hA, hB, hC]
    rfl
  rw [create_ctx_ok_eq work_dir d fs hc1 hc2]
  refine ⟨rfl,
    tarEntries (tmpPath fs.counter ++ ["wandb-project-contents"]) _PROJECT_TAR_ARCHIVE_NAME
      (ctxFS4 work_dir d fs), ?_, ?_, ?_, ?_⟩
  · simp only [rmtree, make_tarfile]
    refine List.mem_filter.mpr ⟨List.mem_append_right _ (List.mem_singleton.mpr rfl), ?_⟩
    rw [tmpPath_not_prefix_succ]
    rfl
  · simp only [tarEntries]
    refine List.mem_filterMap.mpr
      ⟨((tmpPath fs.counter ++ ["wandb-project-contents"]) ++ [_GENERATED_DOCKERFILE_NAME], d),
        ?_, ?_⟩
    · simp only [ctxFS4, mkstemp, writeFile]
      exact List.mem_append_left _ (List.mem_append_right _ (List.mem_singleton.mpr rfl))
    · simp [isPrefixOf_append_self, List.drop_left]
  · intro q c hqc
    simp only [tarEntries, List.mem_filterMap] at hqc
    obtain ⟨e, _, hfe⟩ := hqc
    by_cases hpre : (tmpPath fs.counter ++ ["wandb-project-contents"]).isPrefixOf e.1 = true
    · rw [if_pos hpre] at hfe
      obtain ⟨hq, -⟩ := Prod.mk.injEq .. ▸ Option.some.injEq .. ▸ hfe
      exact ⟨_, hq.symm⟩
    · rw [if_neg hpre] at hfe
      exact Option.noConfusion hfe
  · intro p c hp hpre hne
    refine List.mem_filterMap.mpr
      ⟨((tmpPath fs.counter ++ ["wandb-project-contents"]) ++ p.drop work_dir.length, c), ?_, ?_⟩
    · simp only [ctxFS4, mkstemp, writeFile]
      refine List.mem_append_left _ (List.mem_append_left _ (List.mem_filter.mpr ⟨?_, ?_⟩))

      · simp only [copiedFS]
        refine List.mem_append_right _ (List.mem_filterMap.mpr ⟨(p, c), hp, ?_⟩)
        simp [rebase, hpre]
      · simp only [Bool.not_eq_true', beq_eq_false_iff_ne]
        intro hcon
        exact hne ((List.append_right_inj _).mp hcon)
    · simp [isPrefixOf_append_self, List.drop_left]

/-- C6 witness: a fresh state with one project file; the packager succeeds
with the archive at the freshly allocated path. -/
theorem C6_archive_witness :
    freshB 0 ⟨[["proj"]], [(["proj", "main.py"], "code")], [], 0⟩ = true
    ∧ (_create_docker_build_ctx ⟨false, false⟩ ["proj"] "m"
        ⟨[["proj"]], [(["proj", "main.py"], "code")], [], 0⟩).1 = .ok (tmpPath (0 + 1)) :=
  ⟨by decide,
   (C6_archive_containment ["proj"] "m" ⟨[["proj"]], [(["proj", "main.py"], "code")], [], 0⟩
      (by decide) (by decide)).1⟩

/-- C6 counterexample to the claim as stated: when the source project
directory already contains a top-level file named exactly like the generated
recipe file, the recipe write overwrites the copy, so the archive does not
contain that original file byte-identical — its entry carries the recipe
text instead. -/
theorem C6_counterexample :
    (_create_docker_build_ctx ⟨false, false⟩ ["proj"] "recipe"
        ⟨[["proj"]], [(["proj", "Dockerfile.wandb-autogenerated"], "original")], [], 0⟩).1
      = .ok ["tmpx"]
    ∧ (_create_docker_build_ctx ⟨false, false⟩ ["proj"] "recipe"
        ⟨[["proj"]], [(["proj", "Dockerfile.wandb-autogenerated"], "original")], [], 0⟩).2.tars
      = [(["tmpx"],
          [(["wandb-project-docker-build-context", "Dockerfile.wandb-autogenerated"], "recipe")])]
    ∧ ¬ (["wandb-project-docker-build-context", "Dockerfile.wandb-autogenerated"],
          ("original" : String))
        ∈ [(["wandb-project-docker-build-context", "Dockerfile.wandb-autogenerated"],
          ("recipe" : String))] :=
  ⟨rfl, rfl, by decide⟩

/-- Splitting a character list at every colon: the segments between
(consecutive) colons, in order, empty segments included. -/
def splitOnColonAux : List Char → List (List Char)
  | [] => [[]]
  | c :: cs =>
    if c = ':' then [] :: splitOnColonAux cs
    else
      match splitOnColonAux cs with
      | [] => [[c]]
      | h :: t => (c :: h) :: t

/-- Python `str.split(":")` on the base URL: the string's colon-separated
segments (a one-element list of the whole string when no colon occurs). -/
def splitOnColon (s : String) : List String := (splitOnColonAux s.data).map String.mk

/-- The settings/auth accessor consumed by `build_docker_image`
(`api.settings("base_url")`, `api.api_key`). -/
structure Api where
  base_url : String
  api_key : String

/-- The base-URL resolution of `build_docker_image` (lines 76-82):
`_, _, port = api.settings("base_url").split(":")` unpacks exactly three
parts (a `ValueError` — the generic, unnamed error — otherwise) and takes
the last as the port.  `is_local` and `is_dev` stand for the predicates
`_is_wandb_local_uri` and `_is_wandb_dev_uri` imported from outside the
excerpt. -/
def resolve_base_url (is_local is_dev : String → Bool) (base_url : String) :
    Except Err String :=
  if is_local base_url then
    match splitOnColon base_url with
    | [_, _, port] => .ok ("http://host.docker.internal:" ++ port)
    | _ => .error .valueError
  else if is_dev base_url then .ok "http://host.docker.internal:9002"
  else .ok base_url

/-- One invocation of the external build engine, as recorded by the model:
target tag, in-archive recipe path and the archive used as context. -/
structure EngineCall where
  tag : String
  dockerfile : String
  context : FsPath

/-- Ambient facts of one `build_docker_image` call that come from outside
the excerpt: the local/dev URI predicates, the fixed docker workdir
constant, the version-control query result, the external-failure oracle of
the packager, and the engine's outcome. -/
structure BuildEnv where
  is_local : String → Bool
  is_dev : String → Bool
  workdir : String
  git_commit : Option String
  ext : ExtFail
  engine_ok : Bool
  engine_image : String

/-- Source function `build_docker_image(project, docker_repository_uri, base_image, api)`:
derive the tag, resolve the tracking base URL, read the mandatory
environment entries (an unchecked lookup — the spec's
`MissingConfigurationError`), render the recipe, package the build context,
invoke the engine on it, then best-effort delete the context archive.  The
result is the image handle (or error), the final filesystem state and the
list of engine invocations made. -/
def build_docker_image (env : BuildEnv) (project : Project)
    (docker_repository_uri base_image : String) (api : Api) (fs : FS) :
    Except Err String × FS × List EngineCall :=
  let image_uri := _get_docker_image_uri env.git_commit docker_repository_uri
  match resolve_base_url env.is_local env.is_dev api.base_url with
  | .error e => (.error e, fs, [])
  | .ok base_url =>
    match project.docker_env.lookup "WANDB_PROJECT" with
    | none => (.error .missingConfigurationError, fs, [])
    | some wandb_project =>
      match project.docker_env.lookup "WANDB_ENTITY" with
      | none => (.error .missingConfigurationError, fs, [])
      | some wandb_entity =>
        let dfile := render_dockerfile base_image env.workdir base_url api.api_key
          wandb_project wandb_entity project.name
        match _create_docker_build_ctx env.ext project.dir dfile fs with
        | (.error e, fs1) => (.error e, fs1, [])
        | (.ok build_ctx_path, fs1) =>
          let call : EngineCall :=
            ⟨image_uri, _PROJECT_TAR_ARCHIVE_NAME ++ "/" ++ _GENERATED_DOCKERFILE_NAME,
              build_ctx_path⟩
          if env.engine_ok then
            (.ok env.engine_image, removeFile build_ctx_path fs1, [call])
          else
            (.error .buildError, fs1, [call])

/-- C4: the tracking base URL written into the recipe is the fixed
loopback-to-host address plus the advertised port (the last of the three
colon-separated parts) when the configured base URL matches the local
pattern; the loopback-to-host address with the fixed development port 9002
when it matches the development pattern; and the configured base URL
unchanged otherwise. -/
theorem C4_base_url_translation (is_local is_dev : String → Bool) (u a b p : String) :
    (is_local u = true → splitOnColon u = [a, b, p] →
      resolve_base_url is_local is_dev u = .ok ("http://host.docker.internal:" ++ p))
    ∧ (is_local u = false → is_dev u = true →
      resolve_base_url is_local is_dev u = .ok "http://host.docker.internal:9002")
    ∧ (is_local u = false → is_dev u = false →
      resolve_base_url is_local is_dev u = .ok u) := by
  refine ⟨?_, ?_, ?_⟩
  · intro hl hs
    simp [resolve_base_url, hl, hs]
  · intro hl hd
    simp [resolve_base_url, hl, hd]
  · intro hl hd
    simp [resolve_base_url, hl, hd]

/-- Example predicates used to witness C4 and C10: the concrete local and
development base URLs of the claims' examples. -/
def exampleIsLocal (s : String) : Bool := s == "http://localhost:8080" || s == "http://localhost"

/-- Example development-pattern predicate for the C4 witness. -/
def exampleIsDev (s : String) : Bool := s == "http://app.dev.wandb.ai"

/-- C4 witness: a local base URL with port 8080 maps to
`http://host.docker.internal:8080`; a dev URL maps to the fixed port 9002;
`https://api.example.com` passes through unchanged. -/
theorem C4_witness :
    resolve_base_url exampleIsLocal exampleIsDev "http://localhost:8080"
      = .ok ("http://host.docker.internal:" ++ "8080")
    ∧ resolve_base_url exampleIsLocal exampleIsDev "http://app.dev.wandb.ai"
      = .ok "http://host.docker.internal:9002"
    ∧ resolve_base_url exampleIsLocal exampleIsDev "https://api.example.com"
      = .ok "https://api.example.com" :=
  ⟨(C4_base_url_translation exampleIsLocal exampleIsDev "http://localhost:8080"
      "http" "//localhost" "8080").1 (by decide) (by decide),
   (C4_base_url_translation exampleIsLocal exampleIsDev "http://app.dev.wandb.ai"
      "" "" "").2.1 (by decide) (by decide),
   (C4_base_url_translation exampleIsLocal exampleIsDev "https://api.example.com"
      "" "" "").2.2 (by decide) (by decide)⟩

/-- C5: a descriptor whose environment mapping lacks `WANDB_PROJECT` or
`WANDB_ENTITY` makes `build_docker_image` fail with no filesystem change and
no engine invocation; when the base-URL resolution itself succeeds, the
failure is precisely the missing-configuration error. -/
theorem C5_validation_gating (env : BuildEnv) (project : Project)
    (docker_repository_uri base_image : String) (api : Api) (fs : FS)
    (h : project.docker_env.lookup "WANDB_PROJECT" = none
      ∨ project.docker_env.lookup "WANDB_ENTITY" = none) :
    (∃ e, build_docker_image env project docker_repository_uri base_image api fs
      = (.error e, fs, []))
    ∧ (∀ b, resolve_base_url env.is_local env.is_dev api.base_url = .ok b →
      build_docker_image env project docker_repository_uri base_image api fs
        = (.error .missingConfigurationError, fs, [])) := by
  unfold build_docker_image
  dsimp only
  rcases hr : resolve_base_url env.is_local env.is_dev api.base_url with e | b
  · exact ⟨⟨e, rfl⟩, fun b hb => absurd hb (by simp)⟩
  · rcases hP : project.docker_env.lookup "WANDB_PROJECT" with - | wp
    · exact ⟨⟨.missingConfigurationError, rfl⟩, fun b hb => rfl⟩
    · rcases hE : project.docker_env.lookup "WANDB_ENTITY" with - | we
      · exact ⟨⟨.missingConfigurationError, rfl⟩, fun b hb => rfl⟩
      · rcases h with h | h
        · rw [hP] at h
          exact Option.noConfusion h
        · rw [hE] at h
          exact Option.noConfusion h

/-- C5 witness: an empty environment mapping and a pass-through base URL. -/
theorem C5_witness :
    ((Project.mk ["proj"] none []).docker_env.lookup "WANDB_PROJECT" = none
      ∨ (Project.mk ["proj"] none []).docker_env.lookup "WANDB_ENTITY" = none)
    ∧ build_docker_image
        ⟨fun _ => false, fun _ => false, "/wandb", none, ⟨false, false⟩, true, "img"⟩
        (Project.mk ["proj"] none []) "repo" "base" ⟨"https://api.example.com", "key"⟩
        ⟨[["proj"]], [], [], 0⟩
      = (.error .missingConfigurationError, ⟨[["proj"]], [], [], 0⟩, []) :=
  ⟨Or.inl rfl,
   (C5_validation_gating
      ⟨fun _ => false, fun _ => false, "/wandb", none, ⟨false, false⟩, true, "img"⟩
      (Project.mk ["proj"] none []) "repo" "base" ⟨"https://api.example.com", "key"⟩
      ⟨[["proj"]], [], [], 0⟩ (Or.inl rfl)).2 "https://api.example.com" rfl⟩

/-- C10: for a base URL matching the local pattern, the port is the last of
exactly three colon-split parts; when the split does not have exactly three
parts the call fails with the generic (unnamed) unpacking error before any
packaging or build-engine call — the filesystem is unchanged and the engine
is never invoked. -/
theorem C10_local_unpacking (env : BuildEnv) (project : Project)
    (docker_repository_uri base_image : String) (api : Api) (fs : FS) (a b p : String) :
    (env.is_local api.base_url = true → ¬ (splitOnColon api.base_url).length = 3 →
      build_docker_image env project docker_repository_uri base_image api fs
        = (.error .valueError, fs, []))
    ∧ (env.is_local api.base_url = true → splitOnColon api.base_url = [a, b, p] →
      resolve_base_url env.is_local env.is_dev api.base_url
        = .ok ("http://host.docker.internal:" ++ p)) := by
  constructor
  · intro hl hlen
    have hr : resolve_base_url env.is_local env.is_dev api.base_url = .error .valueError := by
      unfold resolve_base_url
      rw [if_pos hl]
      rcases hs : splitOnColon api.base_url with - | ⟨x, - | ⟨y, - | ⟨z, - | ⟨w, t⟩⟩⟩⟩ <;>
        first
          | rfl
          | (exact absurd (by rw [hs]; rfl) hlen)
    unfold build_docker_image
    dsimp only
    rw [hr]
  · intro hl hs
    simp [resolve_base_url, hl, hs]

/-- C10 witness: a local-pattern base URL with a single colon (two split
parts) fails with the generic error and no side effects; with exactly two
colons the port is the last part. -/
theorem C10_witness :
    exampleIsLocal "http://localhost" = true
    ∧ ¬ (splitOnColon "http://localhost").length = 3
    ∧ build_docker_image
        ⟨exampleIsLocal, fun _ => false, "/wandb", none, ⟨false, false⟩, true, "img"⟩
        (Project.mk ["proj"] none []) "repo" "base" ⟨"http://localhost", "key"⟩
        ⟨[["proj"]], [], [], 0⟩
      = (.error .valueError, ⟨[["proj"]], [], [], 0⟩, [])
    ∧ resolve_base_url exampleIsLocal (fun _ => false) "http://localhost:8080"
      = .ok ("http://host.docker.internal:" ++ "8080") :=
  ⟨by decide, by decide,
   (C10_local_unpacking
      ⟨exampleIsLocal, fun _ => false, "/wandb", none, ⟨false, false⟩, true, "img"⟩
      (Project.mk ["proj"] none []) "repo" "base" ⟨"http://localhost", "key"⟩
      ⟨[["proj"]], [], [], 0⟩ "" "" "").1 (by decide) (by decide),
   (C10_local_unpacking
      ⟨exampleIsLocal, fun _ => false, "/wandb", none, ⟨false, false⟩, true, "img"⟩
      (Project.mk ["proj"] none []) "repo" "base" ⟨"http://localhost:8080", "key"⟩
      ⟨[["proj"]], [], [], 0⟩ "http" "//localhost" "8080").2 (by decide) (by decide)⟩

/-- No newline among the characters: the regex `.` metacharacter matches any
character except a newline. -/
def noNL (l : List Char) : Bool := l.all (fun c => !(c == '\n'))

/-- Greedy capture length for a pattern `(.+)<post>` matching at the start
of `r`: the largest `k ≥ 1` such that the first `k` characters contain no
newline and `post` follows immediately — exactly the greedy `+` with
backtracking of the regular-expression engine. -/
def greedyK (post r : List Char) : Option Nat :=
  ((List.range (r.length + 1)).reverse).find? (fun k =>
    decide (1 ≤ k) && noNL (r.take k) && post.isPrefixOf (r.drop k))

/-- Match of the pattern `<pre>(.+)<post>` anchored at the start of `cs`,
returning the capture and the remainder after the match. -/
def matchAt (pre post cs : List Char) : Option (List Char × List Char) :=
  if pre.isPrefixOf cs then
    match greedyK post (cs.drop pre.length) with
    | some k => some ((cs.drop pre.length).take k, (cs.drop pre.length).drop (k + post.length))
    | none => none
  else none

/-- Left-to-right, non-overlapping scan collecting all captures of
`<pre>(.+)<post>`, fuelled for structural termination. -/
def findallAux (pre post : List Char) : Nat → List Char → List (List Char)
  | 0, _ => []
  | _ + 1, [] => []
  | fuel + 1, c :: cs =>
    match matchAt pre post (c :: cs) with
    | some (cap, rest) => cap :: findallAux pre post fuel rest
    | none => findallAux pre post fuel cs

/-- Python `re.findall` for the one-group pattern `<pre>(.+)<post>`: all captures,
leftmost first, greedy, non-overlapping. -/
def findall (pre post cs : List Char) : List (List Char) :=
  findallAux pre post cs.length cs

/-- The literal parts of `r"Successfully tagged (.+):latest"`. -/
def TAGGED_PRE : List Char := "Successfully tagged ".data

/-- The trailing literal of the success marker. -/
def TAGGED_POST : List Char := ":latest".data

/-- The literal parts of `r"Reusing existing image \((.+)\)"`. -/
def REUSING_PRE : List Char := "Reusing existing image (".data

/-- The trailing literal of the reuse marker. -/
def REUSING_POST : List Char := ")".data

/-- Source function `generate_docker_image(project, entry_cmd)`, parameterised by the
captured build-tool output (`stderr` of the external subprocess): parse the
success markers, fall back to the reuse markers, raise (spec name:
`BuildError`) when neither occurs, and otherwise return the first capture. -/
def generate_docker_image (stderr : String) : Except Err String :=
  let image_id := findall TAGGED_PRE TAGGED_POST stderr.data
  let image_id2 := if image_id.isEmpty then findall REUSING_PRE REUSING_POST stderr.data
    else image_id
  match image_id2 with
  | [] => .error .buildError
  | x :: _ => .ok (String.mk x)

/-- Occurrence of the marker `<pre><name><post>` somewhere in `cs`, with a
non-empty, newline-free name — the declarative reading of "the output
contains the marker". -/
def hasMarker (pre post cs : List Char) : Prop :=
  ∃ u cap v, cs = u ++ (pre ++ (cap ++ (post ++ v))) ∧ ¬ cap = [] ∧ noNL cap = true

theorem greedyK_some_spec (post r : List Char) (k : Nat) (h : greedyK post r = some k) :
    1 ≤ k ∧ k ≤ r.length ∧ noNL (r.take k) = true ∧ post.isPrefixOf (r.drop k) = true := by
  have hpred := List.find?_some h
  have hmem := List.mem_of_find?_eq_some h
  have hk : k < r.length + 1 := List.mem_range.mp (List.mem_reverse.mp hmem)
  simp only [Bool.and_eq_true, decide_eq_true_eq] at hpred
  exact ⟨hpred.1.1, Nat.lt_succ_iff.mp hk, hpred.1.2, hpred.2⟩

theorem matchAt_sound (pre post cs cap rest : List Char)
    (h : matchAt pre post cs = some (cap, rest)) :
    cs = pre ++ (cap ++ (post ++ rest)) ∧ ¬ cap = [] ∧ noNL cap = true := by
  unfold matchAt at h
  by_cases hp : pre.isPrefixOf cs = true
  · rw [if_pos hp] at h
    cases hg : greedyK post (cs.drop pre.length) with
    | none => rw [hg] at h; exact Option.noConfusion h
    | some k =>
      rw [hg] at h
      rw [Option.some_inj, Prod.mk.injEq] at h
      obtain ⟨hc, hr⟩ := h
      obtain ⟨h1k, hkle, hnl, hpost⟩ := greedyK_some_spec post (cs.drop pre.length) k hg
      obtain ⟨t, ht⟩ := ( List.isPrefixOf_iff_prefix).mp hp
      have hrt : cs.drop pre.length = t := by rw [← ht, List.drop_left]
      have hsplit : cs.drop pre.length
          = (cs.drop pre.length).take k ++ (cs.drop pre.length).drop k :=
        (List.take_append_drop k (cs.drop pre.length)).symm
      obtain ⟨t2, ht2⟩ := ( List.isPrefixOf_iff_prefix).mp hpost
      have ht2' : (cs.drop pre.length).drop k
          = post ++ ((cs.drop pre.length).drop k).drop post.length := by
        rw [← ht2, List.drop_left]
      have hdd : ((cs.drop pre.length).drop k).drop post.length
          = (cs.drop pre.length).drop (k + post.length) := by
        rw [List.drop_drop]
      refine ⟨?_, ?_, ?_⟩
      · rw [← ht, ← hrt, ← hc, ← hr, ← hdd, ← ht2']
        rw [← hsplit]
      · rw [← hc]
        intro hnil
        have h0 : ((cs.drop pre.length).take k).length = 0 := by rw [hnil]; rfl
        rw [List.length_take] at h0
        omega
      · rw [← hc]; exact hnl
  · rw [if_neg hp] at h
    exact Option.noConfusion h

theorem matchAt_complete (pre post cap v : List Char) (hcap : ¬ cap = [])
    (hnl : noNL cap = true) :
    ¬ matchAt pre post (pre ++ (cap ++ (post ++ v))) = none := by
  intro h
  have hp : pre.isPrefixOf (pre ++ (cap ++ (post ++ v))) = true := isPrefixOf_append_self _ _
  unfold matchAt at h
  rw [if_pos hp] at h
  have hdropped : (pre ++ (cap ++ (post ++ v))).drop pre.length = cap ++ (post ++ v) :=
    List.drop_left pre _
  rw [hdropped] at h
  cases hg : greedyK post (cap ++ (post ++ v)) with
  | some k => rw [hg] at h; exact Option.noConfusion h
  | none =>
    have hall := List.find?_eq_none.mp hg
    have hk0 : cap.length ∈ (List.range ((cap ++ (post ++ v)).length + 1)).reverse := by
      rw [List.mem_reverse, List.mem_range, List.length_append]
      omega
    have hpred : (decide (1 ≤ cap.length) && noNL ((cap ++ (post ++ v)).take cap.length)
        && post.isPrefixOf ((cap ++ (post ++ v)).drop cap.length)) = true := by
      rw [List.take_left, List.drop_left]
      simp only [Bool.and_eq_true, decide_eq_true_eq]
      exact ⟨⟨List.length_pos.mpr hcap, hnl⟩, isPrefixOf_append_self post v⟩
    exact hall cap.length hk0 hpred

theorem hasMarker_nil (pre post : List Char) : ¬ hasMarker pre post [] := by
  rintro ⟨u, cap, v, heq, hcap, -⟩
  have hlen := congrArg List.length heq
  simp only [List.length_nil, List.length_append] at hlen
  have : 1 ≤ cap.length := List.length_pos.mpr hcap
  omega

theorem hasMarker_cons_of (pre post : List Char) (c : Char) (cs : List Char)
    (h : hasMarker pre post cs) : hasMarker pre post (c :: cs) := by
  obtain ⟨u, cap, v, heq, hcap, hnl⟩ := h
  exact ⟨c :: u, cap, v, by rw [List.cons_append, ← heq], hcap, hnl⟩

theorem findallAux_nil_iff (pre post : List Char) :
    ∀ fuel cs, cs.length ≤ fuel →
      (findallAux pre post fuel cs = [] ↔ ¬ hasMarker pre post cs) := by
  intro fuel
  induction fuel with
  | zero =>
    intro cs hle
    have hnil : cs = [] := List.length_eq_zero.mp (Nat.le_zero.mp hle)
    subst hnil
    exact iff_of_true rfl (hasMarker_nil pre post)
  | succ fuel ih =>
    intro cs hle
    cases cs with
    | nil =>
      exact iff_of_true rfl (hasMarker_nil pre post)
    | cons c cs' =>
      cases hm : matchAt pre post (c :: cs') with
      | some pr =>
        obtain ⟨cap, rest⟩ := pr
        obtain ⟨heq, hcap, hnl⟩ := matchAt_sound pre post (c :: cs') cap rest hm
        refine iff_of_false ?_ ?_
        · simp only [findallAux, hm]
          exact List.cons_ne_nil cap _
        · intro hn
          exact hn ⟨[], cap, rest, by rw [List.nil_append, heq], hcap, hnl⟩
      | none =>
        have hstep : findallAux pre post (fuel + 1) (c :: cs')
            = findallAux pre post fuel cs' := by
          simp only [findallAux, hm]
        rw [hstep]
        have hlen' : cs'.length ≤ fuel := by
          simp only [List.length_cons] at hle
          omega
        rw [ih cs' hlen']
        constructor
        · intro hno hmk
          obtain ⟨u, cap, v, heq, hcap, hnl⟩ := hmk
          cases u with
          | nil =>
            rw [List.nil_append] at heq
            exact matchAt_complete pre post cap v hcap hnl (heq ▸ hm)
          | cons x u' =>
            rw [List.cons_append] at heq
            have hcs' : cs' = u' ++ (pre ++ (cap ++ (post ++ v))) :=
              (List.cons.injEq .. ▸ heq).2
            exact hno ⟨u', cap, v, hcs', hcap, hnl⟩
        · intro hno hmk
          exact hno (hasMarker_cons_of pre post c cs' hmk)

theorem findall_nil_iff (pre post cs : List Char) :
    findall pre post cs = [] ↔ ¬ hasMarker pre post cs :=
  findallAux_nil_iff pre post cs.length cs (Nat.le_refl _)

/-- C9: the subprocess-based image generation fails — with `BuildError` —
exactly when the build-tool output contains neither a success marker
`Successfully tagged <name>:latest` nor a reuse marker
`Reusing existing image (<name>)`; otherwise it returns the first captured
identifier, preferring the success markers over the reuse markers. -/
theorem C9_output_parsing (out : String) :
    (generate_docker_image out = .error .buildError ↔
      ¬ hasMarker TAGGED_PRE TAGGED_POST out.data
        ∧ ¬ hasMarker REUSING_PRE REUSING_POST out.data)
    ∧ (∀ x l, findall TAGGED_PRE TAGGED_POST out.data = x :: l →
        generate_docker_image out = .ok (String.mk x))
    ∧ (∀ x l, findall TAGGED_PRE TAGGED_POST out.data = [] →
        findall REUSING_PRE REUSING_POST out.data = x :: l →
        generate_docker_image out = .ok (String.mk x)) := by
  refine ⟨?_, ?_, ?_⟩
  · cases hA : findall TAGGED_PRE TAGGED_POST out.data with
    | cons x l =>
      refine iff_of_false ?_ ?_
      · simp [generate_docker_image, hA]
      · intro hcon
        have hnil := (findall_nil_iff TAGGED_PRE TAGGED_POST out.data).mpr hcon.1
        rw [hA] at hnil
        exact List.noConfusion hnil
    | nil =>
      cases hB : findall REUSING_PRE REUSING_POST out.data with
      | cons y l =>
        refine iff_of_false ?_ ?_
        · simp [generate_docker_image, hA, hB]
        · intro hcon
          rw [(findall_nil_iff REUSING_PRE REUSING_POST out.data).mpr hcon.2] at hB
          exact List.noConfusion hB
      | nil =>
        refine iff_of_true ?_ ?_
        · simp [generate_docker_image, hA, hB]
        · exact ⟨(findall_nil_iff TAGGED_PRE TAGGED_POST out.data).mp hA,
            (findall_nil_iff REUSING_PRE REUSING_POST out.data).mp hB⟩
  · intro x l hA
    simp [generate_docker_image, hA]
  · intro x l hA hB
    simp [generate_docker_image, hA, hB]

/-- C9 witness: a concrete output with a success marker parses to the tagged
image name; one with only a reuse marker parses to the reused name; and the
markers are present as the claim's existence predicates state. -/
theorem C9_witness :
    findall TAGGED_PRE TAGGED_POST ("build log\nSuccessfully tagged someimg:latest\n").data
      = ["someimg".data]
    ∧ generate_docker_image "build log\nSuccessfully tagged someimg:latest\n"
      = .ok (String.mk "someimg".data)
    ∧ generate_docker_image "Reusing existing image (cachedimg)\n"
      = .ok (String.mk "cachedimg".data) :=
  ⟨by decide,
   (C9_output_parsing "build log\nSuccessfully tagged someimg:latest\n").2.1
      "someimg".data [] (by decide),
   (C9_output_parsing "Reusing existing image (cachedimg)\n").2.2
      "cachedimg".data [] (by decide) (by decide)⟩

end WandbLaunch
